import Mathlib

/-
Verification of the simplessh non-blocking I/O orchestration layer
(src/cbits/simplessh.c) against its natural-language specification.

The C code is shallowly embedded: each libssh2 engine call is modelled by an
oracle (a list of the integer return codes the engine produces, consumed in
order), machine ints are modelled as Lean Int, and each retry loop of the
source becomes a structurally recursive Lean function over its oracle.
-/

namespace Simplessh

-- libssh2's would-block return code (libssh2.h).
def LIBSSH2_ERROR_EAGAIN : Int := -37

-- Source line 22: inline int min(int a, int b) { return a < b ? a : b; }
def min (a b : Int) : Int := if a < b then a else b

/-! ## Retry-loop shapes (claim C1)

Two loop shapes occur in the source.  `busyRetryTrace` embeds
`while((rc = op(...)) == LIBSSH2_ERROR_EAGAIN);` (lines 137, 150, 171, 194,
351, 359, 360, 361): the engine call is re-issued immediately, with no
waitsocket.  `waitRetryTrace` embeds the loops that interleave
`waitsocket(...)` between retries (lines 235-240, 243-249, 296-297, 337-343).
Each produces the sequence of externally visible events (engine call issued /
readiness wait) for a given oracle of return codes. -/

inductive Ev where
  | call
  | wait
deriving Repr, DecidableEq

def busyRetryTrace : List Int → List Ev
  | [] => []
  | r :: rest => Ev.call :: (if r = LIBSSH2_ERROR_EAGAIN then busyRetryTrace rest else [])

def waitRetryTrace : List Int → List Ev
  | [] => []
  | r :: rest =>
      Ev.call :: (if r = LIBSSH2_ERROR_EAGAIN then Ev.wait :: waitRetryTrace rest else [])

-- Per-operation names for the loops, tied to their source lines.
-- line 137: libssh2_session_handshake retry loop.
def handshake_loop_trace : List Int → List Ev := busyRetryTrace
-- lines 150, 171, 194: the three authentication retry loops.
def userauth_loop_trace : List Int → List Ev := busyRetryTrace
-- line 351: libssh2_channel_write retry loop inside simplessh_send_file.
def channel_write_loop_trace : List Int → List Ev := busyRetryTrace
-- lines 359-361: send_eof / close / free finalization loops in send_file.
def send_finalize_loop_trace : List Int → List Ev := busyRetryTrace
-- lines 235-240: libssh2_channel_open_session loop in exec (with waitsocket).
def channel_open_loop_trace : List Int → List Ev := waitRetryTrace
-- lines 243-249: libssh2_channel_exec loop in exec (with waitsocket).
def channel_exec_loop_trace : List Int → List Ev := waitRetryTrace
-- lines 296-297: libssh2_channel_close loop in exec (with waitsocket).
def channel_close_loop_trace : List Int → List Ev := waitRetryTrace
-- lines 337-343: libssh2_scp_send channel-open loop in send_file (with waitsocket).
def scp_open_loop_trace : List Int → List Ev := waitRetryTrace

-- True when some engine call is immediately followed by another engine call,
-- with no readiness wait in between.
def hasBackToBackCall : List Ev → Bool
  | [] => false
  | [_] => false
  | a :: b :: rest =>
      (decide (a = Ev.call) && decide (b = Ev.call)) || hasBackToBackCall (b :: rest)

-- Number of readiness waits in a trace.
def waitCount : List Ev → Nat
  | [] => 0
  | Ev.wait :: rest => waitCount rest + 1
  | Ev.call :: rest => waitCount rest

/-! ## Error kinds (simplessh.h, enum simplessh_error) -/

inductive SErr where
  | CONNECT
  | INIT
  | HANDSHAKE
  | AUTHENTICATION
  | CHANNEL_OPEN
  | CHANNEL_EXEC
  | READ
  | WRITE
deriving Repr, DecidableEq

-- Result of driving a wait-retry loop to completion: skip the EAGAIN answers,
-- return the first settled (non-EAGAIN) return code; none if the oracle runs dry.
def firstSettled : List Int → Option Int
  | [] => none
  | r :: rest => if r = LIBSSH2_ERROR_EAGAIN then firstSettled rest else some r

/-! ## Socket Connector (get_socket, source lines 50-99, claim C2)

One candidate from getaddrinfo's linked list. -/

structure AddrInfo where
  ai_family : Int
  ai_socktype : Int
  ai_protocol : Int
  ai_addr : Int
deriving Repr, DecidableEq

-- Environment behaviour for one iteration of the candidate loop:
-- whether socket() eventually yields a descriptor (after the EINTR do-while),
-- the poll() return code, and whether revents has POLLIN or POLLPRI set.
structure Attempt where
  sockOk : Bool
  pollRc : Int
  reventsReady : Bool
deriving Repr, DecidableEq

-- One observed socket()/connect() issue: the family/type/protocol passed to
-- socket(), and the address passed to connect() (none when socket() failed and
-- the iteration continued without connecting).
structure SockCall where
  family : Int
  socktype : Int
  protocol : Int
  connectAddr : Option Int
deriving Repr, DecidableEq

-- The for-loop of get_socket (lines 69-95).  `res` is the head of the
-- getaddrinfo list; the source passes res->ai_family / res->ai_socktype /
-- res->ai_protocol to socket() and res->ai_addr to connect() in EVERY
-- iteration (lines 71, 76), even though the loop variable is `current`.
-- Returns the list of issued socket/connect calls and whether a connected
-- socket was returned (true) or -1 (false).
def get_socket_loop (res : AddrInfo) : List (AddrInfo × Attempt) → List SockCall × Bool
  | [] => ([], false)
  | (_current, a) :: rest =>
      if ¬ a.sockOk then
        (⟨res.ai_family, res.ai_socktype, res.ai_protocol, none⟩ :: (get_socket_loop res rest).1,
         (get_socket_loop res rest).2)
      else
        if a.pollRc = 0 ∨ a.pollRc = -1 then
          (⟨res.ai_family, res.ai_socktype, res.ai_protocol, some res.ai_addr⟩ ::
             (get_socket_loop res rest).1,
           (get_socket_loop res rest).2)
        else if a.reventsReady then
          ([⟨res.ai_family, res.ai_socktype, res.ai_protocol, some res.ai_addr⟩], true)
        else
          (⟨res.ai_family, res.ai_socktype, res.ai_protocol, some res.ai_addr⟩ ::
             (get_socket_loop res rest).1,
           (get_socket_loop res rest).2)

-- get_socket: resolution yielding the given candidate list (empty list stands
-- for getaddrinfo failure, line 62, which returns -1); on success the socket
-- is reverted to blocking mode (lines 88-89) and returned; the false result
-- stands for the -1 that simplessh_open_session maps to CONNECT (line 129).
def get_socket : List AddrInfo → List Attempt → List SockCall × Bool
  | [], _ => ([], false)
  | res :: restAddrs, attempts => get_socket_loop res (List.zip (res :: restAddrs) attempts)

/-! ## Session Lifecycle Manager (simplessh_open_session, lines 101-141, claim C4) -/

structure OpenOracle where
  -- result of get_socket: -1 on failure, a descriptor otherwise (line 128)
  sockRes : Int
  -- whether libssh2_session_init() returned a non-NULL engine handle (line 131)
  initOk : Bool
  -- handshake return codes (line 137)
  handshakeRes : List Int
deriving Repr

inductive OpenOut where
  | ok
  -- err e tornDown: error side of kind e; tornDown records whether
  -- simplessh_close_session ran before the return (returnLocalErrorSP, 113-116)
  | err (e : SErr) (tornDown : Bool)
  -- the code proceeded to call libssh2_session_set_blocking (line 134) with a
  -- NULL engine handle: undefined behaviour, reached because line 132 tests
  -- the malloc'd wrapper pointer instead of the engine handle
  | usedNullEngine
deriving Repr, DecidableEq

-- Line 119: session = malloc(...); the wrapper pointer tested at line 132 is
-- this malloc result, which (malloc success assumed throughout the file's
-- error handling) is never NULL.
def sessionPtrIsNull : Bool := false

def simplessh_open_session (o : OpenOracle) : Option OpenOut :=
  if o.sockRes = -1 then some (OpenOut.err SErr.CONNECT false)
  else if sessionPtrIsNull then some (OpenOut.err SErr.INIT true)
  else if ¬ o.initOk then some OpenOut.usedNullEngine
  else
    match firstSettled o.handshakeRes with
    | none => none
    | some r => if r = 0 then some OpenOut.ok else some (OpenOut.err SErr.HANDSHAKE true)

/-! ## Command Executor drain loop (simplessh_exec_command, lines 251-294,
claims C5, C6, C7, C8, C9) -/

-- The two growable buffers: capacity and write position of out and err
-- (line 252: int out_size = 128, out_position = 0, err_size = 128, err_position = 0).
structure St where
  outSize : Int
  outPos : Int
  errSize : Int
  errPos : Int
deriving Repr, DecidableEq

def initSt : St := ⟨128, 0, 128, 0⟩

-- One buffer's update after a read returning rc (lines 272-277 resp. 279-284):
-- if(rc > 0) { position += rc;
--              if(size - position < 1024) size = min(size * 2, size + 65536); }
-- Returns (new capacity, new position).
def bufUpdate (size pos rc : Int) : Int × Int :=
  if 0 < rc then
    (if size - (pos + rc) < 1024 then min (size * 2) (size + 65536) else size, pos + rc)
  else (size, pos)

def drainStep (s : St) (rc rc2 : Int) : St :=
  ⟨(bufUpdate s.outSize s.outPos rc).1, (bufUpdate s.outSize s.outPos rc).2,
   (bufUpdate s.errSize s.errPos rc2).1, (bufUpdate s.errSize s.errPos rc2).2⟩

-- One iteration of the drain loop as observed from outside: the buffer state
-- when the two reads were issued, the two return codes, the state afterwards,
-- and whether waitsocket was invoked in this iteration.
structure Iter where
  stB : St
  rcOut : Int
  rcErr : Int
  stA : St
  waited : Bool
deriving Repr, DecidableEq

inductive DrainRes where
  | ok (st : St)
  | readErr
  | fuelOut (st : St)
deriving Repr, DecidableEq

-- The for(;;) loop, lines 256-287.  Every iteration issues one stdout read and
-- one stderr read (lines 257-262), consuming one oracle pair.  Branches mirror
-- lines 264-286 in source order: both zero -> break; both EAGAIN -> waitsocket;
-- a negative non-EAGAIN on either stream -> READ error; otherwise apply the
-- positive byte counts to the buffers.
def drain : List (Int × Int) → St → List Iter × DrainRes
  | [], s => ([], DrainRes.fuelOut s)
  | (rc, rc2) :: rest, s =>
      if rc = 0 ∧ rc2 = 0 then
        ([⟨s, rc, rc2, s, false⟩], DrainRes.ok s)
      else if rc = LIBSSH2_ERROR_EAGAIN ∧ rc2 = LIBSSH2_ERROR_EAGAIN then
        (⟨s, rc, rc2, s, true⟩ :: (drain rest s).1, (drain rest s).2)
      else if (rc < 0 ∧ rc ≠ LIBSSH2_ERROR_EAGAIN) ∨ (rc2 < 0 ∧ rc2 ≠ LIBSSH2_ERROR_EAGAIN) then
        ([⟨s, rc, rc2, s, false⟩], DrainRes.readErr)
      else
        (⟨s, rc, rc2, drainStep s rc rc2, false⟩ :: (drain rest (drainStep s rc rc2)).1,
         (drain rest (drainStep s rc rc2)).2)

-- libssh2's read contract: a successful read returns at most the buffer length
-- it was offered, which at lines 257-262 is size - position - 1.  An oracle is
-- admissible when every positive return code it produces respects the length
-- that the evolving buffer state offered at that point.
def admissible : List (Int × Int) → St → Bool
  | [], _ => true
  | (rc, rc2) :: rest, s =>
      (decide (rc ≤ 0) || decide (rc ≤ s.outSize - s.outPos - 1)) &&
      ((decide (rc2 ≤ 0) || decide (rc2 ≤ s.errSize - s.errPos - 1)) &&
       (if rc = 0 ∧ rc2 = 0 then true
        else if rc = LIBSSH2_ERROR_EAGAIN ∧ rc2 = LIBSSH2_ERROR_EAGAIN then admissible rest s
        else if (rc < 0 ∧ rc ≠ LIBSSH2_ERROR_EAGAIN) ∨ (rc2 < 0 ∧ rc2 ≠ LIBSSH2_ERROR_EAGAIN) then
          true
        else admissible rest (drainStep s rc rc2)))

-- The (rcOut, rcErr) pair of the last iteration of a trace.
def lastRc : List Iter → Option (Int × Int)
  | [] => none
  | [it] => some (it.rcOut, it.rcErr)
  | _ :: rest => lastRc rest

-- Lines 288-294: out[out_position] = 0; out = realloc(out, out_position + 1)
-- and the same for err: the returned buffer capacities, shrunk to content
-- length plus one for the null terminator.
def execFinish (st : St) : Int × Int := (st.outPos + 1, st.errPos + 1)

-- Buffer well-formedness: capacity at least the initial 128, position within
-- capacity leaving room for the final null terminator.
def bufInv (size pos : Int) : Prop := 128 ≤ size ∧ 0 ≤ pos ∧ pos + 1 ≤ size

def stInv (s : St) : Prop := bufInv s.outSize s.outPos ∧ bufInv s.errSize s.errPos

/-! ## simplessh_exec_command, lines 206-311 (claims C6, C7) -/

structure CmdResult where
  -- capacities of the returned out / err buffers after the shrink (288-294)
  outCapacity : Int
  errCapacity : Int
  exit_code : Int
  exit_signal : Option String
deriving Repr, DecidableEq

-- struct simplessh_either: LEFT carries the error kind, RIGHT the value.
inductive SEither (α : Type) where
  | left (e : SErr)
  | right (v : α)
deriving Repr, DecidableEq

-- Return value of exec plus the allocation ledger at the moment of return:
-- which of the out buffer, err buffer and result struct are still allocated
-- (returnLocalErrorC, lines 228-233, frees all three on the error path; on
-- success all three are handed to the caller inside the result).
structure ExecRet where
  ret : SEither CmdResult
  outBufLive : Bool
  errBufLive : Bool
  resultLive : Bool
deriving Repr, DecidableEq

structure ExecOracle where
  -- channel-open attempts (235-240): 0 = non-NULL channel, otherwise the
  -- value of libssh2_session_last_errno for the failed attempt
  openRes : List Int
  -- libssh2_channel_exec return codes (243-249)
  execEnv : List Int
  -- (stdout, stderr) read return-code pairs, one per drain iteration (257-262)
  reads : List (Int × Int)
  -- libssh2_channel_close return codes (296-297)
  closeRes : List Int
  -- what libssh2_channel_get_exit_status would return (line 300)
  exitStatus : Int
  -- what libssh2_channel_get_exit_signal would store (lines 301-304)
  exitSignal : Option String
deriving Repr

def simplessh_exec_command (o : ExecOracle) : Option ExecRet :=
  match firstSettled o.openRes with
  | none => none
  | some r =>
    if r = 0 then
      match firstSettled o.execEnv with
      | none => none
      | some r2 =>
        if r2 = 0 then
          match (drain o.reads initSt).2 with
          | DrainRes.fuelOut _ => none
          | DrainRes.readErr => some ⟨SEither.left SErr.READ, false, false, false⟩
          | DrainRes.ok st =>
            match firstSettled o.closeRes with
            | none => none
            | some c =>
              if c = 0 then
                some ⟨SEither.right ⟨st.outPos + 1, st.errPos + 1, o.exitStatus, o.exitSignal⟩,
                      true, true, true⟩
              else
                some ⟨SEither.right ⟨st.outPos + 1, st.errPos + 1, 127, none⟩, true, true, true⟩
        else some ⟨SEither.left SErr.CHANNEL_EXEC, false, false, false⟩
    else some ⟨SEither.left SErr.CHANNEL_OPEN, false, false, false⟩

/-! ## File Uploader (simplessh_send_file, lines 313-363, claims C3, C10) -/

inductive SendRes where
  | ok (transferred : Int)
  | werr (transferred : Int)
  | fuelOut (transferred : Int)
deriving Repr, DecidableEq

-- The chunk size in effect: when the previous chunk is exhausted (n ≤ 0) the
-- outer loop (line 346) either stops (transferred ≥ data_len) or takes a new
-- chunk n = min(data_len - transferred, 16 * 1024) (line 347); otherwise the
-- inner loop (line 350) continues with the remaining n.
def sendChunk (dataLen t n : Int) : Int :=
  if n ≤ 0 then (if t < dataLen then min (dataLen - t) (16 * 1024) else 0) else n

-- The transfer loop, lines 346-357, over the settled (non-EAGAIN) write
-- return codes: a negative code aborts with WRITE (line 352), otherwise
-- n -= rc; *transferred += rc (lines 353-355).  Also returns the list of
-- accepted (non-negative) write counts, in order.
def sendLoop (dataLen : Int) : List Int → Int → Int → List Int × SendRes
  | [], t, n =>
      if sendChunk dataLen t n ≤ 0 then ([], SendRes.ok t) else ([], SendRes.fuelOut t)
  | rc :: rest, t, n =>
      if sendChunk dataLen t n ≤ 0 then ([], SendRes.ok t)
      else if rc < 0 then ([], SendRes.werr t)
      else (rc :: (sendLoop dataLen rest (t + rc) (sendChunk dataLen t n - rc)).1,
            (sendLoop dataLen rest (t + rc) (sendChunk dataLen t n - rc)).2)

-- libssh2's write contract: a successful write accepts at most the n bytes it
-- was offered (line 351 passes exactly n).
def sendAdmissible (dataLen : Int) : List Int → Int → Int → Bool
  | [], _, _ => true
  | rc :: rest, t, n =>
      if sendChunk dataLen t n ≤ 0 then true
      else if rc < 0 then true
      else decide (rc ≤ sendChunk dataLen t n) &&
           sendAdmissible dataLen rest (t + rc) (sendChunk dataLen t n - rc)

structure SendOracle where
  -- scp channel-open attempts (337-343): 0 = non-NULL channel, otherwise the
  -- value of libssh2_session_last_errno for the failed attempt
  openRes : List Int
  -- settled (non-EAGAIN) libssh2_channel_write return codes (line 351)
  writes : List Int
deriving Repr

-- Modelled from the spec: struct simplessh_either is declared in simplessh.h,
-- which is not under src/; the spec states that on failure the operation
-- returns the error kind "still reporting whatever partial byte count exists"
-- and "returning the bytes-transferred-so-far alongside the error", so the
-- left side carries the transferred counter alongside the error kind.
inductive SendEither where
  | left (e : SErr) (transferred : Int)
  | right (transferred : Int)
deriving Repr, DecidableEq

def simplessh_send_file (o : SendOracle) (dataLen : Int) : Option SendEither :=
  match firstSettled o.openRes with
  | none => none
  | some r =>
    if r = 0 then
      match (sendLoop dataLen o.writes 0 0).2 with
      | SendRes.ok t => some (SendEither.right t)
      | SendRes.werr t => some (SendEither.left SErr.WRITE t)
      | SendRes.fuelOut _ => none
    -- line 341: open failure surfaces CHANNEL_OPEN while *transferred is
    -- still the initial zero
    else some (SendEither.left SErr.CHANNEL_OPEN 0)

/-! ## Theorems -/

theorem hasBackToBackCall_wait_cons (t : List Ev) :
    hasBackToBackCall (Ev.wait :: t) = hasBackToBackCall t := by
  cases t with
  | nil => simp [hasBackToBackCall]
  | cons b r => simp [hasBackToBackCall]

theorem waitRetryTrace_no_back_to_back (rs : List Int) :
    hasBackToBackCall (waitRetryTrace rs) = false := by
  induction rs with
  | nil => simp [waitRetryTrace, hasBackToBackCall]
  | cons r rest ih =>
    by_cases h : r = LIBSSH2_ERROR_EAGAIN
    · simp [waitRetryTrace, h]
      cases hrest : waitRetryTrace rest with
      | nil => simp [hasBackToBackCall]
      | cons b tl =>
        simp [hasBackToBackCall, hasBackToBackCall_wait_cons]
        rw [← hrest, ih]
    · simp [waitRetryTrace, h, hasBackToBackCall]

theorem busyRetryTrace_no_wait (rs : List Int) :
    waitCount (busyRetryTrace rs) = 0 := by
  induction rs with
  | nil => simp [busyRetryTrace, waitCount]
  | cons r rest ih =>
    by_cases h : r = LIBSSH2_ERROR_EAGAIN <;>
      simp [busyRetryTrace, h, waitCount, ih]

/-- C1 counterexample: the handshake retry loop at source line 137
(`while((rc = libssh2_session_handshake(...)) == LIBSSH2_ERROR_EAGAIN);`)
re-issues the handshake immediately after a would-block return, with no
intervening readiness wait: on the oracle [EAGAIN, 0] its event trace is two
back-to-back engine calls and contains no wait at all, refuting the claim that
no retry loop re-invokes the engine call without waiting for readiness. -/
theorem handshake_busy_spin_counterexample :
    handshake_loop_trace [LIBSSH2_ERROR_EAGAIN, 0] = [Ev.call, Ev.call] ∧
    hasBackToBackCall (handshake_loop_trace [LIBSSH2_ERROR_EAGAIN, 0]) = true ∧
    waitCount (handshake_loop_trace [LIBSSH2_ERROR_EAGAIN, 0]) = 0 := by decide

/-- C1 (amended): the channel-open, command-exec and channel-close retry loops
of exec and the scp channel-open loop of send_file always interleave a
readiness wait between an EAGAIN and the re-issued call (their traces never
contain two adjacent engine calls), while the handshake loop, the three
authentication loops, send_file's chunk-write loop and send_file's
eof/close/free finalization loops never wait at all: they re-invoke the engine
call back-to-back. -/
theorem retry_wait_discipline :
    (∀ rs : List Int, hasBackToBackCall (channel_open_loop_trace rs) = false) ∧
    (∀ rs : List Int, hasBackToBackCall (channel_exec_loop_trace rs) = false) ∧
    (∀ rs : List Int, hasBackToBackCall (channel_close_loop_trace rs) = false) ∧
    (∀ rs : List Int, hasBackToBackCall (scp_open_loop_trace rs) = false) ∧
    (∀ rs : List Int, waitCount (handshake_loop_trace rs) = 0) ∧
    (∀ rs : List Int, waitCount (userauth_loop_trace rs) = 0) ∧
    (∀ rs : List Int, waitCount (channel_write_loop_trace rs) = 0) ∧
    (∀ rs : List Int, waitCount (send_finalize_loop_trace rs) = 0) :=
  ⟨fun rs => waitRetryTrace_no_back_to_back rs,
   fun rs => waitRetryTrace_no_back_to_back rs,
   fun rs => waitRetryTrace_no_back_to_back rs,
   fun rs => waitRetryTrace_no_back_to_back rs,
   fun rs => busyRetryTrace_no_wait rs,
   fun rs => busyRetryTrace_no_wait rs,
   fun rs => busyRetryTrace_no_wait rs,
   fun rs => busyRetryTrace_no_wait rs⟩

/-- C2: the candidate loop of get_socket (lines 69-95) iterates `current` over
the resolved list but passes `res->ai_family, res->ai_socktype,
res->ai_protocol` to socket() (line 71) and `res->ai_addr` to connect()
(line 76) — the fields of the FIRST candidate — in every iteration.  With two
candidates A = (family 2, type 1, proto 6, addr 100) and
B = (family 10, type 2, proto 17, addr 200), where the poll for the first
attempt times out and the second attempt becomes ready, both issued
socket/connect calls use A's family/type/protocol and A's address; B's own
family 10 and address 200 are never used, contradicting the claim that each
candidate's own family/type/protocol and address are used. -/
theorem get_socket_connects_first_candidate_only :
    (get_socket [⟨2, 1, 6, 100⟩, ⟨10, 2, 17, 200⟩] [⟨true, 0, false⟩, ⟨true, 1, true⟩]).2
      = true ∧
    (get_socket [⟨2, 1, 6, 100⟩, ⟨10, 2, 17, 200⟩] [⟨true, 0, false⟩, ⟨true, 1, true⟩]).1
      = [⟨2, 1, 6, some 100⟩, ⟨2, 1, 6, some 100⟩] ∧
    (AddrInfo.mk 10 2 17 200).ai_family = 10 ∧ (AddrInfo.mk 10 2 17 200).ai_addr = 200 := by
  decide

/-- C4: with a connected socket (descriptor 5) and libssh2_session_init()
returning NULL, simplessh_open_session does not return the INIT error side:
line 132 tests `!session` — the malloc'd wrapper pointer, which is never
NULL — instead of `session->lsession`, so the INIT branch is unreachable and
the NULL engine handle is passed on to libssh2_session_set_blocking
(line 134), contradicting the claim that engine-allocation failure yields
INIT with teardown through close. -/
theorem open_session_init_check_bug :
    simplessh_open_session ⟨5, false, []⟩ = some OpenOut.usedNullEngine ∧
    sessionPtrIsNull = false := by decide

theorem drain_cons_both_zero (rc rc2 : Int) (rest : List (Int × Int)) (s : St)
    (h1 : rc = 0 ∧ rc2 = 0) :
    drain ((rc, rc2) :: rest) s = ([⟨s, rc, rc2, s, false⟩], DrainRes.ok s) := by
  simp only [drain, if_pos h1]

theorem drain_cons_both_eagain (rc rc2 : Int) (rest : List (Int × Int)) (s : St)
    (h1 : ¬(rc = 0 ∧ rc2 = 0))
    (h2 : rc = LIBSSH2_ERROR_EAGAIN ∧ rc2 = LIBSSH2_ERROR_EAGAIN) :
    drain ((rc, rc2) :: rest) s =
      (⟨s, rc, rc2, s, true⟩ :: (drain rest s).1, (drain rest s).2) := by
  simp only [drain, if_neg h1, if_pos h2]

theorem drain_cons_hard (rc rc2 : Int) (rest : List (Int × Int)) (s : St)
    (h1 : ¬(rc = 0 ∧ rc2 = 0))
    (h2 : ¬(rc = LIBSSH2_ERROR_EAGAIN ∧ rc2 = LIBSSH2_ERROR_EAGAIN))
    (h3 : (rc < 0 ∧ rc ≠ LIBSSH2_ERROR_EAGAIN) ∨ (rc2 < 0 ∧ rc2 ≠ LIBSSH2_ERROR_EAGAIN)) :
    drain ((rc, rc2) :: rest) s = ([⟨s, rc, rc2, s, false⟩], DrainRes.readErr) := by
  simp only [drain, if_neg h1, if_neg h2, if_pos h3]

theorem drain_cons_step (rc rc2 : Int) (rest : List (Int × Int)) (s : St)
    (h1 : ¬(rc = 0 ∧ rc2 = 0))
    (h2 : ¬(rc = LIBSSH2_ERROR_EAGAIN ∧ rc2 = LIBSSH2_ERROR_EAGAIN))
    (h3 : ¬((rc < 0 ∧ rc ≠ LIBSSH2_ERROR_EAGAIN) ∨
            (rc2 < 0 ∧ rc2 ≠ LIBSSH2_ERROR_EAGAIN))) :
    drain ((rc, rc2) :: rest) s =
      (⟨s, rc, rc2, drainStep s rc rc2, false⟩ :: (drain rest (drainStep s rc rc2)).1,
       (drain rest (drainStep s rc rc2)).2) := by
  simp only [drain, if_neg h1, if_neg h2, if_neg h3]

theorem drain_trace_take (rs : List (Int × Int)) : ∀ s : St,
    (drain rs s).1.map (fun it => (it.rcOut, it.rcErr)) = rs.take (drain rs s).1.length := by
  induction rs with
  | nil => intro s; simp [drain]
  | cons p rest ih =>
    intro s
    obtain ⟨rc, rc2⟩ := p
    by_cases h1 : rc = 0 ∧ rc2 = 0
    · rw [drain_cons_both_zero rc rc2 rest s h1]; simp
    · by_cases h2 : rc = LIBSSH2_ERROR_EAGAIN ∧ rc2 = LIBSSH2_ERROR_EAGAIN
      · rw [drain_cons_both_eagain rc rc2 rest s h1 h2]; simp [ih s]
      · by_cases h3 : (rc < 0 ∧ rc ≠ LIBSSH2_ERROR_EAGAIN) ∨
            (rc2 < 0 ∧ rc2 ≠ LIBSSH2_ERROR_EAGAIN)
        · rw [drain_cons_hard rc rc2 rest s h1 h2 h3]; simp
        · rw [drain_cons_step rc rc2 rest s h1 h2 h3]; simp [ih (drainStep s rc rc2)]

theorem drain_eagain_wait (rs : List (Int × Int)) : ∀ (s : St) (it : Iter),
    it ∈ (drain rs s).1 → it.rcOut = LIBSSH2_ERROR_EAGAIN →
    it.rcErr = LIBSSH2_ERROR_EAGAIN → it.waited = true := by
  induction rs with
  | nil => intro s it hit; simp [drain] at hit
  | cons p rest ih =>
    intro s it hit hout herr
    obtain ⟨rc, rc2⟩ := p
    by_cases h1 : rc = 0 ∧ rc2 = 0
    · rw [drain_cons_both_zero rc rc2 rest s h1] at hit
      simp at hit
      subst hit
      simp at hout
      simp only [LIBSSH2_ERROR_EAGAIN] at hout
      exfalso
      omega
    · by_cases h2 : rc = LIBSSH2_ERROR_EAGAIN ∧ rc2 = LIBSSH2_ERROR_EAGAIN
      · rw [drain_cons_both_eagain rc rc2 rest s h1 h2] at hit
        simp at hit
        rcases hit with h | h
        · subst h; rfl
        · exact ih s it h hout herr
      · by_cases h3 : (rc < 0 ∧ rc ≠ LIBSSH2_ERROR_EAGAIN) ∨
            (rc2 < 0 ∧ rc2 ≠ LIBSSH2_ERROR_EAGAIN)
        · rw [drain_cons_hard rc rc2 rest s h1 h2 h3] at hit
          simp at hit
          subst hit
          simp at hout herr
          exact absurd ⟨hout, herr⟩ h2
        · rw [drain_cons_step rc rc2 rest s h1 h2 h3] at hit
          simp at hit
          rcases hit with h | h
          · subst h
            simp at hout herr
            exact absurd ⟨hout, herr⟩ h2
          · exact ih (drainStep s rc rc2) it h hout herr

theorem lastRc_cons_of_ne_nil (it : Iter) (t : List Iter) (h : t ≠ []) :
    lastRc (it :: t) = lastRc t := by
  cases t with
  | nil => exact absurd rfl h
  | cons b r => simp [lastRc]

theorem drain_ok_lastRc (rs : List (Int × Int)) : ∀ (s st : St),
    (drain rs s).2 = DrainRes.ok st → lastRc (drain rs s).1 = some (0, 0) := by
  induction rs with
  | nil => intro s st h; simp [drain] at h
  | cons p rest ih =>
    intro s st h
    obtain ⟨rc, rc2⟩ := p
    by_cases h1 : rc = 0 ∧ rc2 = 0
    · rw [drain_cons_both_zero rc rc2 rest s h1]
      simp [lastRc, h1.1, h1.2]
    · by_cases h2 : rc = LIBSSH2_ERROR_EAGAIN ∧ rc2 = LIBSSH2_ERROR_EAGAIN
      · rw [drain_cons_both_eagain rc rc2 rest s h1 h2] at h ⊢
        have htail := ih s st h
        rw [lastRc_cons_of_ne_nil _ _
          (by intro hnil; rw [hnil] at htail; simp [lastRc] at htail)]
        exact htail
      · by_cases h3 : (rc < 0 ∧ rc ≠ LIBSSH2_ERROR_EAGAIN) ∨
            (rc2 < 0 ∧ rc2 ≠ LIBSSH2_ERROR_EAGAIN)
        · rw [drain_cons_hard rc rc2 rest s h1 h2 h3] at h
          simp at h
        · rw [drain_cons_step rc rc2 rest s h1 h2 h3] at h ⊢
          have htail := ih (drainStep s rc rc2) st h
          rw [lastRc_cons_of_ne_nil _ _
            (by intro hnil; rw [hnil] at htail; simp [lastRc] at htail)]
          exact htail

/-- C5: properties of the drain loop (lines 256-287).  For every oracle of
(stdout, stderr) read results and every starting buffer state: (1) the
iterations consume the oracle pairs in lockstep, one stdout read and one
stderr read per iteration; (2) any iteration in which both reads return
would-block invokes waitsocket before the next retry; (3) if the loop
terminates normally, its final iteration is one in which both reads returned
exactly 0 (end-of-stream), never a would-block pair. -/
theorem exec_drain_loop_spec (rs : List (Int × Int)) (s : St) :
    ((drain rs s).1.map (fun it => (it.rcOut, it.rcErr)) = rs.take (drain rs s).1.length) ∧
    (∀ it ∈ (drain rs s).1, it.rcOut = LIBSSH2_ERROR_EAGAIN →
      it.rcErr = LIBSSH2_ERROR_EAGAIN → it.waited = true) ∧
    (∀ st : St, (drain rs s).2 = DrainRes.ok st → lastRc (drain rs s).1 = some (0, 0)) :=
  ⟨drain_trace_take rs s,
   fun it hit hout herr => drain_eagain_wait rs s it hit hout herr,
   fun st h => drain_ok_lastRc rs s st h⟩

theorem exec_drain_loop_spec_witness :
    ((⟨initSt, -37, -37, initSt, true⟩ : Iter) ∈
      (drain [((-37 : Int), (-37 : Int)), (0, 0)] initSt).1) ∧
    (⟨initSt, -37, -37, initSt, true⟩ : Iter).waited = true ∧
    (drain [((-37 : Int), (-37 : Int)), (0, 0)] initSt).2 = DrainRes.ok initSt ∧
    lastRc (drain [((-37 : Int), (-37 : Int)), (0, 0)] initSt).1 = some (0, 0) :=
  ⟨by decide,
   (exec_drain_loop_spec [((-37 : Int), (-37 : Int)), (0, 0)] initSt).2.1
     ⟨initSt, -37, -37, initSt, true⟩ (by decide) (by decide) (by decide),
   by decide,
   (exec_drain_loop_spec [((-37 : Int), (-37 : Int)), (0, 0)] initSt).2.2 initSt (by decide)⟩

/-- C8: the growth policy of exec's output buffers.  Both buffers start at the
initial capacity 128 (line 252), and whenever a successful read (rc > 0)
leaves the buffer with headroom below 1024 bytes, the new capacity computed at
lines 274-275 / 281-282 is exactly min(2 * old, old + 65536): doubling capped
at +65536 per growth step. -/
theorem exec_buffer_growth_spec (size pos rc : Int) (h1 : 0 < rc)
    (h2 : size - (pos + rc) < 1024) :
    initSt.outSize = 128 ∧ initSt.errSize = 128 ∧
    (bufUpdate size pos rc).1 = min (size * 2) (size + 65536) := by
  refine ⟨rfl, rfl, ?_⟩
  simp only [bufUpdate, if_pos h1, if_pos h2]

theorem exec_buffer_growth_spec_witness :
    (0 : Int) < 16 ∧ (128 : Int) - (0 + 16) < 1024 ∧
    (initSt.outSize = 128 ∧ initSt.errSize = 128 ∧
     (bufUpdate 128 0 16).1 = min (128 * 2) (128 + 65536)) :=
  ⟨by decide, by decide, exec_buffer_growth_spec 128 0 16 (by decide) (by decide)⟩

theorem bufUpdate_inv (size pos rc : Int) (h : bufInv size pos)
    (hrc : rc ≤ 0 ∨ rc ≤ size - pos - 1) :
    bufInv (bufUpdate size pos rc).1 (bufUpdate size pos rc).2 := by
  obtain ⟨hs, hp, hps⟩ := h
  unfold bufUpdate min bufInv
  split_ifs <;> constructor <;> omega

theorem stInv_initSt : stInv initSt := by
  unfold stInv bufInv
  decide

theorem admissible_cons (rc rc2 : Int) (rest : List (Int × Int)) (s : St)
    (ha : admissible ((rc, rc2) :: rest) s = true) :
    (rc ≤ 0 ∨ rc ≤ s.outSize - s.outPos - 1) ∧
    (rc2 ≤ 0 ∨ rc2 ≤ s.errSize - s.errPos - 1) ∧
    ((if rc = 0 ∧ rc2 = 0 then true
      else if rc = LIBSSH2_ERROR_EAGAIN ∧ rc2 = LIBSSH2_ERROR_EAGAIN then admissible rest s
      else if (rc < 0 ∧ rc ≠ LIBSSH2_ERROR_EAGAIN) ∨ (rc2 < 0 ∧ rc2 ≠ LIBSSH2_ERROR_EAGAIN) then
        true
      else admissible rest (drainStep s rc rc2)) = true) := by
  simp only [admissible, Bool.and_eq_true, Bool.or_eq_true, decide_eq_true_eq] at ha
  exact ⟨ha.1, ha.2.1, ha.2.2⟩

theorem drain_inv (rs : List (Int × Int)) : ∀ s : St, stInv s → admissible rs s = true →
    (∀ it ∈ (drain rs s).1, stInv it.stB) ∧
    (∀ st : St, (drain rs s).2 = DrainRes.ok st → stInv st) := by
  induction rs with
  | nil =>
    intro s hs _
    refine ⟨?_, ?_⟩
    · intro it hit; simp [drain] at hit
    · intro st h; simp [drain] at h
  | cons p rest ih =>
    intro s hs ha
    obtain ⟨rc, rc2⟩ := p
    obtain ⟨hro, hre, hrest⟩ := admissible_cons rc rc2 rest s ha
    by_cases h1 : rc = 0 ∧ rc2 = 0
    · rw [drain_cons_both_zero rc rc2 rest s h1]
      refine ⟨?_, ?_⟩
      · intro it hit; simp at hit; subst hit; exact hs
      · intro st h; simp at h; rw [← h]; exact hs
    · rw [if_neg h1] at hrest
      by_cases h2 : rc = LIBSSH2_ERROR_EAGAIN ∧ rc2 = LIBSSH2_ERROR_EAGAIN
      · rw [if_pos h2] at hrest
        rw [drain_cons_both_eagain rc rc2 rest s h1 h2]
        have hrec := ih s hs hrest
        refine ⟨?_, ?_⟩
        · intro it hit
          rcases List.mem_cons.mp hit with h | h
          · subst h; exact hs
          · exact hrec.1 it h
        · intro st h; exact hrec.2 st h
      · rw [if_neg h2] at hrest
        by_cases h3 : (rc < 0 ∧ rc ≠ LIBSSH2_ERROR_EAGAIN) ∨
            (rc2 < 0 ∧ rc2 ≠ LIBSSH2_ERROR_EAGAIN)
        · rw [drain_cons_hard rc rc2 rest s h1 h2 h3]
          refine ⟨?_, ?_⟩
          · intro it hit; simp at hit; subst hit; exact hs
          · intro st h; simp at h
        · rw [if_neg h3] at hrest
          rw [drain_cons_step rc rc2 rest s h1 h2 h3]
          have hstep : stInv (drainStep s rc rc2) :=
            ⟨bufUpdate_inv s.outSize s.outPos rc hs.1 hro,
             bufUpdate_inv s.errSize s.errPos rc2 hs.2 hre⟩
          have hrec := ih (drainStep s rc rc2) hstep hrest
          refine ⟨?_, ?_⟩
          · intro it hit
            rcases List.mem_cons.mp hit with h | h
            · subst h; exact hs
            · exact hrec.1 it h
          · intro st h; exact hrec.2 st h

/-- C9: memory safety of the drain loop.  Under libssh2's read contract (each
positive return is at most the offered length size - position - 1, captured by
`admissible`), starting from the initial 128-byte buffers: every read of every
iteration is issued with a non-negative available length for both streams, and
on normal termination the final positions satisfy position ≤ size - 1, so the
null-terminator stores out[out_position] and err[err_position] (lines 288,
292) are within the current capacities, and the buffers returned by
execFinish are shrunk to exactly content length + 1 (lines 289, 293). -/
theorem exec_drain_safety (rs : List (Int × Int)) (h : admissible rs initSt = true) :
    (∀ it ∈ (drain rs initSt).1,
       0 ≤ it.stB.outSize - it.stB.outPos - 1 ∧ 0 ≤ it.stB.errSize - it.stB.errPos - 1) ∧
    (∀ st : St, (drain rs initSt).2 = DrainRes.ok st →
       st.outPos ≤ st.outSize - 1 ∧ st.errPos ≤ st.errSize - 1 ∧
       execFinish st = (st.outPos + 1, st.errPos + 1)) := by
  have hinv := drain_inv rs initSt stInv_initSt h
  refine ⟨?_, ?_⟩
  · intro it hit
    have := hinv.1 it hit
    unfold stInv bufInv at this
    omega
  · intro st hok
    have := hinv.2 st hok
    unfold stInv bufInv at this
    exact ⟨by omega, by omega, rfl⟩

theorem exec_drain_safety_witness :
    admissible [((100 : Int), (-37 : Int)), ((0 : Int), (0 : Int))] initSt = true ∧
    ((⟨256, 100, 128, 0⟩ : St).outPos ≤ (⟨256, 100, 128, 0⟩ : St).outSize - 1 ∧
     (⟨256, 100, 128, 0⟩ : St).errPos ≤ (⟨256, 100, 128, 0⟩ : St).errSize - 1 ∧
     execFinish ⟨256, 100, 128, 0⟩ =
       ((⟨256, 100, 128, 0⟩ : St).outPos + 1, (⟨256, 100, 128, 0⟩ : St).errPos + 1)) :=
  ⟨by decide,
   (exec_drain_safety [((100 : Int), (-37 : Int)), ((0 : Int), (0 : Int))] (by decide)).2
     ⟨256, 100, 128, 0⟩ (by decide)⟩

/-- C6: when the channel opened and the command was sent, a hard read error on
either stream (negative, not EAGAIN — the branch at lines 268-270) makes
simplessh_exec_command return the error side tagged READ, and at that return
the out buffer, the err buffer and the half-built result struct are all
released (returnLocalErrorC, lines 228-233): no half-built success payload is
leaked or returned. -/
theorem exec_read_error_cleanup (o : ExecOracle)
    (h1 : firstSettled o.openRes = some 0)
    (h2 : firstSettled o.execEnv = some 0)
    (h3 : (drain o.reads initSt).2 = DrainRes.readErr) :
    simplessh_exec_command o = some ⟨SEither.left SErr.READ, false, false, false⟩ := by
  simp only [simplessh_exec_command, h1, h2, h3]
  norm_num

theorem exec_read_error_cleanup_witness :
    simplessh_exec_command ⟨[0], [0], [((-5 : Int), (0 : Int))], [], 0, none⟩ =
      some ⟨SEither.left SErr.READ, false, false, false⟩ :=
  exec_read_error_cleanup ⟨[0], [0], [((-5 : Int), (0 : Int))], [], 0, none⟩
    (by decide) (by decide) (by decide)

/-- C7: after a successful drain, the channel-close loop (lines 296-297)
settles with some return code c, and simplessh_exec_command returns the
success side regardless of c; the result's exit_code is the engine's exit
status (fetched at line 300, together with the exit signal at lines 301-304)
exactly when the close was clean (c = 0), and otherwise stays at the
initialized default 127 with no exit signal (lines 220-221) — never any other
sentinel. -/
theorem exec_exit_code_spec (o : ExecOracle) (st : St) (c : Int)
    (h1 : firstSettled o.openRes = some 0)
    (h2 : firstSettled o.execEnv = some 0)
    (h3 : (drain o.reads initSt).2 = DrainRes.ok st)
    (h4 : firstSettled o.closeRes = some c) :
    simplessh_exec_command o =
      some ⟨SEither.right ⟨st.outPos + 1, st.errPos + 1,
              if c = 0 then o.exitStatus else 127,
              if c = 0 then o.exitSignal else none⟩, true, true, true⟩ := by
  simp only [simplessh_exec_command, h1, h2, h3, h4]
  by_cases hc : c = 0 <;> simp [hc]

theorem exec_exit_code_spec_witness :
    simplessh_exec_command ⟨[0], [0], [((0 : Int), (0 : Int))], [-7], 5, none⟩ =
      some ⟨SEither.right ⟨1, 1, 127, none⟩, true, true, true⟩ := by
  have h := exec_exit_code_spec ⟨[0], [0], [((0 : Int), (0 : Int))], [-7], 5, none⟩ initSt (-7)
    (by decide) (by decide) (by decide) (by decide)
  simpa [initSt] using h

theorem sendChunk_le_zero (dataLen t n : Int) (h : sendChunk dataLen t n ≤ 0) :
    dataLen ≤ t := by
  unfold sendChunk min at h
  split_ifs at h <;> omega

theorem sendChunk_add_le (dataLen t n : Int) (hn : 0 < n → t + n ≤ dataLen)
    (hpos : 0 < sendChunk dataLen t n) : t + sendChunk dataLen t n ≤ dataLen := by
  by_cases hn0 : n ≤ 0
  · unfold sendChunk min at hpos ⊢
    rw [if_pos hn0] at hpos ⊢
    split_ifs at hpos ⊢ <;> omega
  · have := hn (by omega)
    unfold sendChunk at hpos ⊢
    rw [if_neg hn0] at hpos ⊢
    omega

theorem sendLoop_werr_sum (dataLen : Int) (ws : List Int) : ∀ t n u : Int,
    (sendLoop dataLen ws t n).2 = SendRes.werr u →
    u = t + ((sendLoop dataLen ws t n).1).sum := by
  induction ws with
  | nil =>
    intro t n u hu
    by_cases hc : sendChunk dataLen t n ≤ 0 <;> simp [sendLoop, hc] at hu
  | cons rc rest ih =>
    intro t n u hu
    by_cases hc : sendChunk dataLen t n ≤ 0
    · simp [sendLoop, hc] at hu
    · by_cases hrc : rc < 0
      · simp only [sendLoop, if_neg hc, if_pos hrc] at hu ⊢
        simp at hu ⊢
        omega
      · simp only [sendLoop, if_neg hc, if_neg hrc] at hu ⊢
        have := ih (t + rc) (sendChunk dataLen t n - rc) u hu
        simp [List.sum_cons]
        omega

theorem sendLoop_bounds (dataLen : Int) (ws : List Int) : ∀ t n : Int,
    0 ≤ t → t ≤ dataLen → (0 < n → t + n ≤ dataLen) →
    sendAdmissible dataLen ws t n = true →
    (∀ k : Nat, t + (((sendLoop dataLen ws t n).1).take k).sum ≤ dataLen) ∧
    (∀ u : Int, (sendLoop dataLen ws t n).2 = SendRes.ok u → u = dataLen) := by
  induction ws with
  | nil =>
    intro t n ht0 htd hn _
    by_cases hc : sendChunk dataLen t n ≤ 0
    · refine ⟨?_, ?_⟩
      · intro k; simpa [sendLoop, hc] using htd
      · intro u hu
        simp [sendLoop, hc] at hu
        have := sendChunk_le_zero dataLen t n hc
        omega
    · refine ⟨?_, ?_⟩
      · intro k; simpa [sendLoop, hc] using htd
      · intro u hu; simp [sendLoop, hc] at hu
  | cons rc rest ih =>
    intro t n ht0 htd hn ha
    by_cases hc : sendChunk dataLen t n ≤ 0
    · refine ⟨?_, ?_⟩
      · intro k; simpa [sendLoop, hc] using htd
      · intro u hu
        simp [sendLoop, hc] at hu
        have := sendChunk_le_zero dataLen t n hc
        omega
    · by_cases hrc : rc < 0
      · refine ⟨?_, ?_⟩
        · intro k; simpa [sendLoop, hc, hrc] using htd
        · intro u hu; simp [sendLoop, hc, hrc] at hu
      · simp only [sendAdmissible, if_neg hc, if_neg hrc, Bool.and_eq_true,
          decide_eq_true_eq] at ha
        obtain ⟨hrcle, ha2⟩ := ha
        have hchunk := sendChunk_add_le dataLen t n hn (by omega)
        have hrec := ih (t + rc) (sendChunk dataLen t n - rc) (by omega) (by omega)
          (by intro h; omega) ha2
        refine ⟨?_, ?_⟩
        · intro k
          cases k with
          | zero => simpa using htd
          | succ k2 =>
            simp only [sendLoop, if_neg hc, if_neg hrc, List.take_succ_cons, List.sum_cons]
            have := hrec.1 k2
            omega
        · intro u hu
          simp only [sendLoop, if_neg hc, if_neg hrc] at hu
          exact hrec.2 u hu

/-- C3: when the scp channel opened and a chunk write returns a hard error
(negative, not EAGAIN — line 352), simplessh_send_file returns the error side
tagged WRITE, and the transferred count it carries equals the sum of the byte
counts accepted by all prior successful writes (*transferred is advanced by
exactly rc per accepted write, line 355, and never touched on the error path),
so the caller can detect a partial upload. -/
theorem send_file_write_error_partial_count (o : SendOracle) (dataLen t : Int)
    (c : List Int)
    (h1 : firstSettled o.openRes = some 0)
    (h2 : sendLoop dataLen o.writes 0 0 = (c, SendRes.werr t)) :
    simplessh_send_file o dataLen = some (SendEither.left SErr.WRITE t) ∧ t = c.sum := by
  have hs : (sendLoop dataLen o.writes 0 0).2 = SendRes.werr t := by rw [h2]
  have hc : (sendLoop dataLen o.writes 0 0).1 = c := by rw [h2]
  refine ⟨?_, ?_⟩
  · simp [simplessh_send_file, h1, hs]
  · have := sendLoop_werr_sum dataLen o.writes 0 0 t hs
    rw [hc] at this
    simpa using this

theorem send_file_write_error_partial_count_witness :
    simplessh_send_file ⟨[0], [3, -5]⟩ 10 = some (SendEither.left SErr.WRITE 3) ∧
    (3 : Int) = ([3] : List Int).sum :=
  send_file_write_error_partial_count ⟨[0], [3, -5]⟩ 10 3 [3] (by decide) (by decide)

/-- C10: under libssh2's write contract (each accepted count is at most the n
bytes offered, captured by `sendAdmissible`), the running transferred counter
never exceeds data_len at any point of the transfer loop (every prefix sum of
the accepted write counts stays ≤ data_len, each chunk being bounded by
min(data_len - transferred, 16 * 1024), line 347), and when
simplessh_send_file returns the success side its reported bytes-transferred
equals data_len exactly. -/
theorem send_file_transferred_bounds (o : SendOracle) (dataLen : Int)
    (h0 : 0 ≤ dataLen) (ha : sendAdmissible dataLen o.writes 0 0 = true) :
    (∀ k : Nat, (((sendLoop dataLen o.writes 0 0).1).take k).sum ≤ dataLen) ∧
    (∀ u : Int, simplessh_send_file o dataLen = some (SendEither.right u) → u = dataLen) := by
  have h := sendLoop_bounds dataLen o.writes 0 0 le_rfl h0 (by omega) ha
  refine ⟨?_, ?_⟩
  · intro k; have := h.1 k; omega
  · intro u hu
    rcases hop : firstSettled o.openRes with _ | r
    · simp [simplessh_send_file, hop] at hu
    · by_cases hr : r = 0
      · subst hr
        rcases hsl : (sendLoop dataLen o.writes 0 0).2 with t | t | t
        · simp [simplessh_send_file, hop, hsl] at hu
          have := h.2 t hsl
          omega
        · simp [simplessh_send_file, hop, hsl] at hu
        · simp [simplessh_send_file, hop, hsl] at hu
      · simp [simplessh_send_file, hop, hr] at hu

theorem send_file_transferred_bounds_witness :
    (((sendLoop 5 ([3, 2] : List Int) 0 0).1).take 2).sum ≤ (5 : Int) ∧ (5 : Int) = 5 :=
  ⟨(send_file_transferred_bounds ⟨[0], [3, 2]⟩ 5 (by decide) (by decide)).1 2,
   (send_file_transferred_bounds ⟨[0], [3, 2]⟩ 5 (by decide) (by decide)).2 5 (by decide)⟩

end Simplessh
